import Mathlib

/-!
Shallow embedding of the koordinator scheduler plugins under verification:

* `pkg/scheduler/plugins/loadaware/load_aware.go` — the LoadAwareScheduling
  plugin: resource estimation (`estimatedUsedByResource`, `estimatedPodUsed`),
  the assignment-cache usage aggregation (`estimatedAssignedPodUsage`),
  metric-expiration (`isNodeMetricExpired`, `getNodeMetricReportInterval`),
  the scorer (`leastRequestedScore`, `loadAwareSchedulingScorer`) and the
  `Filter`/`Score` entry points.
* the BatchResourceFit plugin (`batchresource` package) — `computePodBatchRequest`,
  `computeNodeBatchAllocatable`, `computeNodeBatchRequested`, `fitsRequest`,
  `Filter`.

Modelling conventions:
* Kubernetes `resource.Quantity` values are stored as `Nat` in the resource's
  canonical scheduling unit (milli-units for cpu — `MilliValue()` —, base units
  otherwise); pod and node resource quantities are validated non-negative by
  Kubernetes, so `Nat` is faithful.  Arithmetic performed by the plugins on
  `int64` is carried out in `Int`.
* A Go `map[ResourceName]Quantity` read with `m[k]` yields the zero quantity for
  a missing key; where the code never distinguishes absence from zero the map is
  modelled as a total function to `Nat` (absent = 0).  Where the code checks
  presence (`v, ok := m[k]`) the map is modelled as `ResourceName → Option Nat`.
* `time.Time` and `time.Duration` are nanosecond counts (`Int`); `time.Since x`
  is `now - x` with the current instant `now` passed explicitly.
* Go `int64` division truncates toward zero, hence `Int.tdiv`.
* `int64(math.Round(float64 v * float64 sf / 100))` is integer rounding half
  away from zero, `mathRoundDiv100 (v * sf)`; exact for operands within
  float64's integral range, which covers every realistic resource quantity.
-/

namespace Koord

/-- Resource kinds appearing in the plugins.  `batchCPU`/`batchMemory` are the
current batch-tier extended-resource names (`kubernetes.io/batch-cpu`, …),
`koordBatchCPU`/`koordBatchMemory` the deprecated legacy generation
(`koordinator.sh/batch-cpu`, …); `other` stands for any further (extended,
scalar) resource name. -/
inductive ResourceName where
  | cpu
  | memory
  | batchCPU
  | batchMemory
  | koordBatchCPU
  | koordBatchMemory
  | other (s : String)
deriving DecidableEq

/-- framework.MaxNodeScore (kube-scheduler framework). -/
def MaxNodeScore : Int := 100

/-- DefaultMilliCPURequest (load_aware.go): default milli cpu request. -/
def DefaultMilliCPURequest : Int := 250

/-- DefaultMemoryRequest (load_aware.go): default memory request, 200 MB. -/
def DefaultMemoryRequest : Int := 200 * 1024 * 1024

/-- One second in nanoseconds (Go time.Second). -/
def secondNanos : Int := 1000000000

/-- DefaultNodeMetricReportInterval (load_aware.go): 60 * time.Second. -/
def DefaultNodeMetricReportInterval : Int := 60 * secondNanos

/-- int64(math.Round(x / 100)) for an integer numerator x: rounding half away
from zero. -/
def mathRoundDiv100 (x : Int) : Int :=
  if 0 ≤ x then (x + 50).tdiv 100 else (x - 50).tdiv 100

namespace LoadAware

/-- A corev1.ResourceList as read by the load-aware plugin: lookup of a missing
key yields the zero quantity and the plugin never distinguishes absence from
zero, so the map is total with absent entries equal to 0. -/
def ResourceList := ResourceName → Nat

/-- estimatedUsedByResource (load_aware.go): predicted usage of one resource
kind from the pod's aggregated requests and limits.  If the limit is strictly
greater than the request, the scaling factor is forced to 100 and the limit is
used; a zero selected quantity falls back to fixed defaults; otherwise the
quantity is scaled by scalingFactor/100, rounded, and clamped against the
limit's value.  The cpu branch works in milli-units and the default branch in
base units; quantities are stored in exactly those units, so both branches read
the stored value. -/
def estimatedUsedByResource (requests limits : ResourceList)
    (resourceName : ResourceName) (scalingFactor : Int) : Int :=
  let limitQuantity := limits resourceName
  let requestQuantity := requests resourceName
  let sf : Int := if requestQuantity < limitQuantity then 100 else scalingFactor
  let quantity : Nat := if requestQuantity < limitQuantity then limitQuantity else requestQuantity
  if quantity = 0 then
    match resourceName with
    | .cpu | .batchCPU => DefaultMilliCPURequest
    | .memory | .batchMemory => DefaultMemoryRequest
    | _ => 0
  else
    let estimatedUsed := mathRoundDiv100 ((quantity : Int) * sf)
    if (limitQuantity : Int) < estimatedUsed then (limitQuantity : Int) else estimatedUsed

/-- slov1alpha1.NodeMetric, restricted to the fields the plugin reads:
Status.UpdateTime (a nil-able timestamp), Status.NodeMetric (nil-able; its
NodeUsage.ResourceList when present) and Spec.CollectPolicy (nil-able; its
nil-able ReportIntervalSeconds). -/
structure NodeMetric where
  updateTime : Option Int
  nodeUsage : Option ResourceList
  collectPolicy : Option (Option Int)

/-- isNodeMetricExpired (load_aware.go): nodeMetric == nil ||
Status.UpdateTime == nil || expirationSeconds > 0 && time.Since(UpdateTime) >=
Duration(expirationSeconds)*Second. -/
def isNodeMetricExpired (now : Int) (nodeMetric : Option NodeMetric)
    (nodeMetricExpirationSeconds : Int) : Bool :=
  match nodeMetric with
  | none => true
  | some nm =>
    match nm.updateTime with
    | none => true
    | some t =>
      decide (0 < nodeMetricExpirationSeconds) &&
        decide (nodeMetricExpirationSeconds * secondNanos ≤ now - t)

/-- getNodeMetricReportInterval (load_aware.go): the declared
Spec.CollectPolicy.ReportIntervalSeconds when both are non-nil, else the 60s
default. -/
def getNodeMetricReportInterval (nodeMetric : NodeMetric) : Int :=
  match nodeMetric.collectPolicy with
  | none => DefaultNodeMetricReportInterval
  | some none => DefaultNodeMetricReportInterval
  | some (some s) => s * secondNanos

/-- Koordinator pod priority classes (apis/extension), relevant only as the
input of the injected resource-name translation. -/
inductive PriorityClass where
  | prod
  | mid
  | batch
  | free
  | nonePC
deriving DecidableEq

/-- Requests and limits of one container. -/
structure ContainerResources where
  requests : ResourceList
  limits : ResourceList

/-- The slice of corev1.Pod the plugin reads: container resources, init
container resources, the nil-able Overhead, and the priority class that
extension.GetPriorityClass derives from the pod. -/
structure Pod where
  containers : List ContainerResources
  initContainers : List ContainerResources
  overhead : Option ResourceList
  priorityClass : PriorityClass

/-- addResourceList (k8s resource helpers): pointwise sum. -/
def addResourceList (list newList : ResourceList) : ResourceList :=
  fun r => list r + newList r

/-- maxResourceList (k8s resource helpers): pointwise maximum (a key only in
one list keeps its value, i.e. is maxed with 0). -/
def maxResourceList (list newList : ResourceList) : ResourceList :=
  fun r => max (list r) (newList r)

/-- The overhead step of PodRequestsAndLimits on the limits list: overhead is
added only to limits that are already present and non-zero. -/
def addOverheadToLimits (limits overhead : ResourceList) : ResourceList :=
  fun r => if limits r ≠ 0 then limits r + overhead r else limits r

/-- resourceapi.PodRequestsAndLimits (k8s, called by estimatedPodUsed): per
resource, sum over containers, then max against each init container, then add
Overhead (to requests unconditionally, to limits only where non-zero). -/
def podRequestsAndLimits (pod : Pod) : ResourceList × ResourceList :=
  let reqs := pod.containers.foldl (fun acc c => addResourceList acc c.requests) (fun _ => 0)
  let limits := pod.containers.foldl (fun acc c => addResourceList acc c.limits) (fun _ => 0)
  let reqs := pod.initContainers.foldl (fun acc c => maxResourceList acc c.requests) reqs
  let limits := pod.initContainers.foldl (fun acc c => maxResourceList acc c.limits) limits
  match pod.overhead with
  | none => (reqs, limits)
  | some oh => (addResourceList reqs oh, addOverheadToLimits limits oh)

/-- The ResourceWeights map together with its key set (Go map iteration):
an association list with one entry per weighted resource. -/
abbrev Weights := List (ResourceName × Int)

/-- Association-list lookup, the read side of the ResourceWeights map. -/
def lookupWeight (ws : Weights) (r : ResourceName) : Option Int :=
  match ws with
  | [] => none
  | (r₀, w) :: rest => if r₀ = r then some w else lookupWeight rest r

/-- The priority-class-dependent resource-name translation
(extension.TranslateResourceNameByPriorityClass) is outside this repository's
core; per the design it is an injected pure function, passed as `translate`. -/
def Translate := PriorityClass → ResourceName → ResourceName

/-- estimatedPodUsed (load_aware.go): for each weighted resource, the estimate
of estimatedUsedByResource at the priority-class-translated name with that
resource's scaling factor.  The produced Go map holds exactly the weighted
keys; reads of other keys yield 0, hence the total-function result. -/
def estimatedPodUsed (translate : Translate) (pod : Pod)
    (resourceWeights : Weights) (scalingFactors : ResourceName → Int) :
    ResourceName → Int :=
  let rl := podRequestsAndLimits pod
  fun resourceName =>
    match lookupWeight resourceWeights resourceName with
    | some _ =>
      estimatedUsedByResource rl.1 rl.2
        (translate pod.priorityClass resourceName) (scalingFactors resourceName)
    | none => 0

/-- One entry of podAssignCache.podInfoItems[nodeName]: the assigned pod and
its assignment timestamp. -/
structure PodAssignInfo where
  timestamp : Int
  pod : Pod

/-- estimatedAssignedPodUsage (load_aware.go): sums estimatedPodUsed over the
cached assignments whose timestamp is strictly after the snapshot's update
time, or strictly before it with a gap smaller than the report interval.  The
Go code dereferences Status.UpdateTime unconditionally (a nil pointer would
panic there); the theorems below always supply a present update time. -/
def estimatedAssignedPodUsage (translate : Translate) (resourceWeights : Weights)
    (scalingFactors : ResourceName → Int) (nodeMetric : NodeMetric) :
    List PodAssignInfo → ResourceName → Int
  | [], _ => 0
  | assignInfo :: rest, resourceName =>
    let updateTime := nodeMetric.updateTime.getD 0
    (if updateTime < assignInfo.timestamp ∨
        (assignInfo.timestamp < updateTime ∧
          updateTime - assignInfo.timestamp < getNodeMetricReportInterval nodeMetric) then
      estimatedPodUsed translate assignInfo.pod resourceWeights scalingFactors resourceName
    else 0)
    + estimatedAssignedPodUsage translate resourceWeights scalingFactors nodeMetric
        rest resourceName

/-- leastRequestedScore (load_aware.go): ((capacity - requested) *
MaxNodeScore) / capacity with int64 (truncating) division, 0 when capacity is 0
or requested exceeds capacity. -/
def leastRequestedScore (requested capacity : Int) : Int :=
  if capacity = 0 then 0
  else if capacity < requested then 0
  else ((capacity - requested) * MaxNodeScore).tdiv capacity

/-- The loop body of loadAwareSchedulingScorer: the weighted score sum and the
weight sum over the ResourceWeights entries. -/
def sumWeightedScores (ws : Weights) (used allocatable : ResourceName → Int) : Int × Int :=
  match ws with
  | [] => (0, 0)
  | (resourceName, weight) :: rest =>
    let p := sumWeightedScores rest used allocatable
    (leastRequestedScore (used resourceName) (allocatable resourceName) * weight + p.1,
      weight + p.2)

/-- loadAwareSchedulingScorer (load_aware.go): weighted per-resource scores
divided by the weight sum (int64 truncating division). -/
def loadAwareSchedulingScorer (resToWeightMap : Weights)
    (used allocatable : ResourceName → Int) : Int :=
  let p := sumWeightedScores resToWeightMap used allocatable
  p.1.tdiv p.2

/-- A framework.Status outcome as produced by the plugins: nil (success),
Unschedulable with reasons, or Error. -/
inductive Status where
  | success
  | unschedulable (reasons : List String)
  | failure (msg : String)
deriving DecidableEq

/-- config.LoadAwareSchedulingArgs, restricted to the fields the plugin reads. -/
structure LoadAwareArgs where
  filterExpiredNodeMetrics : Option Bool
  nodeMetricExpirationSeconds : Option Int
  resourceWeights : Weights
  estimatedScalingFactors : ResourceName → Int
  usageThresholds : List (ResourceName × Int)

/-- The slice of the corev1.Node object the plugin reads: declared allocatable
capacity and the custom usage thresholds parsed from its annotation
(extension.GetCustomUsageThresholds; an absent annotation parses to an empty
list, and a parse error keeps the configured thresholds exactly as an empty
list does, so both are modelled by the empty list). -/
structure Node where
  allocatable : ResourceList
  customUsageThresholds : List (ResourceName × Int)

/-- ErrReasonNodeMetricExpired (load_aware.go). -/
def ErrReasonNodeMetricExpired : String := "node(s) nodeMetric expired"

/-- The string form of a resource name, used only to render reason strings. -/
def resourceNameString : ResourceName → String
  | .cpu => "cpu"
  | .memory => "memory"
  | .batchCPU => "kubernetes.io/batch-cpu"
  | .batchMemory => "kubernetes.io/batch-memory"
  | .koordBatchCPU => "koordinator.sh/batch-cpu"
  | .koordBatchMemory => "koordinator.sh/batch-memory"
  | .other s => s

/-- ErrReasonUsageExceedThreshold (load_aware.go), with the resource name
formatted in. -/
def errReasonUsageExceedThreshold (r : ResourceName) : String :=
  "node(s) " ++ resourceNameString r ++ " usage exceed threshold"

/-- int64(math.Round(float64 used / float64 total * 100)) for total > 0:
rounding half up of the non-negative ratio.  The Go code divides MilliValue by
MilliValue; the ratio equals the ratio of the stored canonical units. -/
def roundedUsagePercent (used total : Nat) : Int :=
  ((200 * used + total) / (2 * total) : Nat)

/-- The usage-threshold loop of Filter (load_aware.go): the first entry with a
non-zero threshold, non-zero allocatable and usage percentage at or above the
threshold makes the node Unschedulable.  Go map iteration order is
unspecified; the embedding fixes an order, which only selects which violated
resource is reported, not whether one is. -/
def checkUsageThresholds (thresholds : List (ResourceName × Int))
    (allocatable : ResourceList) (usage : ResourceList) : Status :=
  match thresholds with
  | [] => .success
  | (resourceName, threshold) :: rest =>
    if threshold = 0 then checkUsageThresholds rest allocatable usage
    else if allocatable resourceName = 0 then checkUsageThresholds rest allocatable usage
    else if threshold ≤ roundedUsagePercent (usage resourceName) (allocatable resourceName) then
      .unschedulable [errReasonUsageExceedThreshold resourceName]
    else checkUsageThresholds rest allocatable usage

/-- The result of the nodeMetricLister lookup: the metric, a NotFound error, or
another lookup error. -/
inductive MetricLookup where
  | found (nodeMetric : NodeMetric)
  | notFound
  | lookupFailure (msg : String)

/-- Plugin.Filter (load_aware.go).  `node` is nodeInfo.Node() (nil-able),
`metricLookup` the nodeMetricLister result, `now` the current instant. -/
def Filter (now : Int) (args : LoadAwareArgs) (node : Option Node)
    (metricLookup : MetricLookup) : Status :=
  match node with
  | none => .failure "node not found"
  | some node =>
    match metricLookup with
    | .lookupFailure msg => .failure msg
    | .notFound => .success
    | .found nodeMetric =>
      let expiredGate : Bool :=
        match args.filterExpiredNodeMetrics, args.nodeMetricExpirationSeconds with
        | some true, some sec => isNodeMetricExpired now (some nodeMetric) sec
        | _, _ => false
      if expiredGate then .unschedulable [ErrReasonNodeMetricExpired]
      else
        let usageThresholds :=
          if node.customUsageThresholds ≠ [] then node.customUsageThresholds
          else args.usageThresholds
        if usageThresholds = [] then .success
        else
          match nodeMetric.nodeUsage with
          | none => .success
          | some usage => checkUsageThresholds usageThresholds node.allocatable usage

/-- Plugin.Score (load_aware.go).  `nodeLookup` is the snapshot shared lister
result (error, nil node, or node); `assignedInfos` is
podAssignCache.podInfoItems[nodeName]. -/
def Score (translate : Translate) (now : Int) (args : LoadAwareArgs)
    (nodeLookup : Except String (Option Node)) (metricLookup : MetricLookup)
    (pod : Pod) (assignedInfos : List PodAssignInfo) : Int × Status :=
  match nodeLookup with
  | .error msg => (0, .failure msg)
  | .ok none => (0, .failure "node not found")
  | .ok (some node) =>
    match metricLookup with
    | .lookupFailure msg => (0, .failure msg)
    | .notFound => (0, .success)
    | .found nodeMetric =>
      let expired : Bool :=
        match args.nodeMetricExpirationSeconds with
        | some sec => isNodeMetricExpired now (some nodeMetric) sec
        | none => false
      if expired then (0, .success)
      else
        let estimatedUsed :=
          estimatedPodUsed translate pod args.resourceWeights args.estimatedScalingFactors
        let assignedUsage :=
          estimatedAssignedPodUsage translate args.resourceWeights
            args.estimatedScalingFactors nodeMetric assignedInfos
        let withAssigned : ResourceName → Int :=
          fun r => estimatedUsed r + assignedUsage r
        let allocatable : ResourceName → Int := fun r =>
          match lookupWeight args.resourceWeights r with
          | some _ => (node.allocatable r : Int)
          | none => 0
        let finalUsed : ResourceName → Int := fun r =>
          match lookupWeight args.resourceWeights r, nodeMetric.nodeUsage with
          | some _, some usage => withAssigned r + (usage r : Int)
          | _, _ => withAssigned r
        (loadAwareSchedulingScorer args.resourceWeights finalUsed allocatable, .success)

end LoadAware

namespace BatchResource

/-- A resource map whose presence of keys is observed (`v, ok := m[k]`):
pod ResourceLists and the ScalarResources of framework.Resource views. -/
def QuantityMap := ResourceName → Option Nat

/-- batchResource (batchresource plugin): a (milliCPU, memory) pair of int64. -/
structure batchResource where
  MilliCPU : Int
  Memory : Int
deriving DecidableEq

/-- Whether Resource.Add/SetMaxResource route a name to the ScalarResources
map: cpu and memory go to dedicated fields; the batch-tier extended names (and
`other`, which stands for scalar extended resources) are scalar. -/
def isScalarResourceName : ResourceName → Bool
  | .cpu => false
  | .memory => false
  | _ => true

/-- framework.Resource restricted to the fields computePodBatchRequest can
touch: the MilliCPU and Memory fields and the ScalarResources map. -/
structure FrameworkResource where
  milliCPU : Nat
  memory : Nat
  scalar : QuantityMap

/-- The zero framework.Resource{}. -/
def emptyResource : FrameworkResource :=
  { milliCPU := 0, memory := 0, scalar := fun _ => none }

/-- framework.Resource.Add: cpu adds its MilliValue to the MilliCPU field,
memory its Value to the Memory field, and each scalar name present in the
argument list is added to the ScalarResources entry (created from 0 when
absent). -/
def resourceAdd (r : FrameworkResource) (rl : QuantityMap) : FrameworkResource where
  milliCPU := r.milliCPU + (rl .cpu).getD 0
  memory := r.memory + (rl .memory).getD 0
  scalar := fun n =>
    if isScalarResourceName n then
      match rl n with
      | some v => some ((r.scalar n).getD 0 + v)
      | none => r.scalar n
    else r.scalar n

/-- framework.Resource.SetMaxResource: for each name present in the argument
list, the stored value (0 when absent) is replaced by its maximum with the
argument's value. -/
def resourceSetMax (r : FrameworkResource) (rl : QuantityMap) : FrameworkResource where
  milliCPU := max r.milliCPU ((rl .cpu).getD 0)
  memory := max r.memory ((rl .memory).getD 0)
  scalar := fun n =>
    if isScalarResourceName n then
      match rl n with
      | some v => some (max ((r.scalar n).getD 0) v)
      | none => r.scalar n
    else r.scalar n

/-- The slice of corev1.Pod the BatchResourceFit plugin reads: each container's
Resources.Requests, each init container's Resources.Requests and the nil-able
Overhead. -/
structure Pod where
  containers : List QuantityMap
  initContainers : List QuantityMap
  overhead : Option QuantityMap

/-- The podRequest local of computePodBatchRequest: sum the containers'
requests, take the max against each init container, then add the overhead when
declared. -/
def podRequestResource (pod : Pod) : FrameworkResource :=
  let podRequest := pod.containers.foldl resourceAdd emptyResource
  let podRequest := pod.initContainers.foldl resourceSetMax podRequest
  match pod.overhead with
  | some oh => resourceAdd podRequest oh
  | none => podRequest

/-- computePodBatchRequest (batchresource plugin): sum the containers' requests,
take the max against each init container, add the overhead, then read the batch
scalar names with the current generation overwriting the legacy one. -/
def computePodBatchRequest (pod : Pod) : batchResource :=
  let podRequest := podRequestResource pod
  let milliCPU : Int :=
    match podRequest.scalar .koordBatchCPU with
    | some v => (v : Int)
    | none => 0
  let memory : Int :=
    match podRequest.scalar .koordBatchMemory with
    | some v => (v : Int)
    | none => 0
  let milliCPU : Int :=
    match podRequest.scalar .batchCPU with
    | some v => (v : Int)
    | none => milliCPU
  let memory : Int :=
    match podRequest.scalar .batchMemory with
    | some v => (v : Int)
    | none => memory
  { MilliCPU := milliCPU, Memory := memory }

/-- The slice of framework.NodeInfo the plugin reads: the ScalarResources of
its Allocatable and Requested aggregates. -/
structure NodeInfo where
  allocatableScalar : QuantityMap
  requestedScalar : QuantityMap

/-- computeNodeBatchAllocatable (batchresource plugin): legacy names first,
overwritten by the current names when present. -/
def computeNodeBatchAllocatable (nodeInfo : NodeInfo) : batchResource :=
  let milliCPU : Int :=
    match nodeInfo.allocatableScalar .koordBatchCPU with
    | some v => (v : Int)
    | none => 0
  let memory : Int :=
    match nodeInfo.allocatableScalar .koordBatchMemory with
    | some v => (v : Int)
    | none => 0
  let milliCPU : Int :=
    match nodeInfo.allocatableScalar .batchCPU with
    | some v => (v : Int)
    | none => milliCPU
  let memory : Int :=
    match nodeInfo.allocatableScalar .batchMemory with
    | some v => (v : Int)
    | none => memory
  { MilliCPU := milliCPU, Memory := memory }

/-- computeNodeBatchRequested (batchresource plugin): the values under the
current and the legacy name are accumulated. -/
def computeNodeBatchRequested (nodeInfo : NodeInfo) : batchResource :=
  let milliCPU : Int :=
    match nodeInfo.requestedScalar .batchCPU with
    | some v => (v : Int)
    | none => 0
  let milliCPU : Int :=
    match nodeInfo.requestedScalar .koordBatchCPU with
    | some v => milliCPU + (v : Int)
    | none => milliCPU
  let memory : Int :=
    match nodeInfo.requestedScalar .batchMemory with
    | some v => (v : Int)
    | none => 0
  let memory : Int :=
    match nodeInfo.requestedScalar .koordBatchMemory with
    | some v => memory + (v : Int)
    | none => memory
  { MilliCPU := milliCPU, Memory := memory }

/-- noderesources.InsufficientResource (kube-scheduler), the record fitsRequest
appends per violated resource. -/
structure InsufficientResource where
  resourceName : ResourceName
  reason : String
  requested : Int
  used : Int
  capacity : Int
deriving DecidableEq

/-- fitsRequest (batchresource plugin): admit unconditionally when the pod
declares no batch demand; otherwise append one insufficiency record per batch
resource whose demand exceeds allocatable minus already-requested, cpu first,
memory second, without short-circuiting. -/
def fitsRequest (pod : Pod) (nodeInfo : NodeInfo) : List InsufficientResource :=
  let podBatchRequest := computePodBatchRequest pod
  if podBatchRequest.MilliCPU = 0 ∧ podBatchRequest.Memory = 0 then []
  else
    let nodeRequested := computeNodeBatchRequested nodeInfo
    let nodeAllocatable := computeNodeBatchAllocatable nodeInfo
    (if nodeAllocatable.MilliCPU - nodeRequested.MilliCPU < podBatchRequest.MilliCPU then
      [{ resourceName := .batchCPU, reason := "Insufficient batch cpu",
         requested := podBatchRequest.MilliCPU, used := nodeRequested.MilliCPU,
         capacity := nodeAllocatable.MilliCPU }]
    else [])
    ++
    (if nodeAllocatable.Memory - nodeRequested.Memory < podBatchRequest.Memory then
      [{ resourceName := .batchMemory, reason := "Insufficient batch memory",
         requested := podBatchRequest.Memory, used := nodeRequested.Memory,
         capacity := nodeAllocatable.Memory }]
    else [])

/-- Plugin.Filter (batchresource plugin): Unschedulable with every failure
reason when fitsRequest reports insufficiencies, success otherwise. -/
def Filter (pod : Pod) (nodeInfo : NodeInfo) : LoadAware.Status :=
  let insufficientResources := fitsRequest pod nodeInfo
  if insufficientResources ≠ [] then
    .unschedulable (insufficientResources.map (fun r => r.reason))
  else .success

/-- Spec-side aggregation (spec §4.1 steps 2–3), for comparison with
computePodBatchRequest: per resource name, the sum over all main containers,
taken as a maximum against each single init container, plus the declared
per-workload overhead, reading an absent entry as 0. -/
def specAggregatedRequest (pod : Pod) (r : ResourceName) : Nat :=
  max ((pod.containers.map (fun c => (c r).getD 0)).sum)
      ((pod.initContainers.map (fun c => (c r).getD 0)).foldr max 0)
  + (match pod.overhead with
     | some oh => (oh r).getD 0
     | none => 0)

/-- Spec-side presence of a resource name in the pod's resource lists: some
main container, init container or the declared overhead mentions it. -/
def specMentions (pod : Pod) (r : ResourceName) : Bool :=
  pod.containers.any (fun c => (c r).isSome) ||
  pod.initContainers.any (fun c => (c r).isSome) ||
  (match pod.overhead with
   | some oh => (oh r).isSome
   | none => false)

/-- Spec-side value of one aggregated resource name, present exactly when some
resource list of the pod mentions it. -/
def specScalarValue (pod : Pod) (r : ResourceName) : Option Nat :=
  if specMentions pod r then some (specAggregatedRequest pod r) else none

/-- Spec-side batch demand (spec §3 and §4.1): the batch-tier pair read
directly from the aggregated resource names, the current generation's value
authoritative over the legacy one. -/
def specPodBatchRequest (pod : Pod) : batchResource where
  MilliCPU :=
    match specScalarValue pod .batchCPU with
    | some v => (v : Int)
    | none =>
      match specScalarValue pod .koordBatchCPU with
      | some v => (v : Int)
      | none => 0
  Memory :=
    match specScalarValue pod .batchMemory with
    | some v => (v : Int)
    | none =>
      match specScalarValue pod .koordBatchMemory with
      | some v => (v : Int)
      | none => 0

end BatchResource

/-! ## Theorems -/

/-- C7: whenever both the request and the limit resolved for a resource kind
are zero (equivalently absent), estimatedUsedByResource substitutes the fixed
default: 250 milli-units for cpu-class resources (cpu, batch-cpu),
200*1024*1024 for memory-class resources (memory, batch-memory), and 0 for any
other resource kind. -/
theorem estimatedUsedByResource_zero_fallback :
    ∀ (requests limits : LoadAware.ResourceList) (r : ResourceName) (sf : Int),
      requests r = 0 → limits r = 0 →
      LoadAware.estimatedUsedByResource requests limits r sf =
        match r with
        | .cpu | .batchCPU => 250
        | .memory | .batchMemory => 200 * 1024 * 1024
        | _ => 0 := by
  intro requests limits r sf hreq hlim
  unfold LoadAware.estimatedUsedByResource
  simp only [hreq, hlim]
  cases r <;> simp [DefaultMilliCPURequest, DefaultMemoryRequest]

/-- C7 witness: zero request and zero limit on cpu yield the 250 default. -/
theorem estimatedUsedByResource_zero_fallback_witness :
    LoadAware.estimatedUsedByResource (fun _ => 0) (fun _ => 0) .cpu 75 = 250 :=
  estimatedUsedByResource_zero_fallback (fun _ => 0) (fun _ => 0) .cpu 75 rfl rfl

/-- C1: evaluation of estimatedUsedByResource at a pod with request cpu=100m,
no declared limit and scalingFactor 50.  The code clamps the scaled request
against the absent limit's zero value and returns 0, whereas the stated rule
(clamp only when a limit exists) gives the scaled request
mathRoundDiv100 (100 * 50) = 50. -/
theorem estimatedUsedByResource_absent_limit_clamps_to_zero :
    LoadAware.estimatedUsedByResource (fun r => if r = .cpu then 100 else 0)
        (fun _ => 0) .cpu 50 = 0 ∧
      mathRoundDiv100 (100 * 50) = 50 := by
  decide

/-- C9: isNodeMetricExpired is true exactly when the snapshot is absent, has no
update timestamp, or expirationSeconds > 0 and the elapsed time since the
update timestamp is at least expirationSeconds; and for a snapshot carrying an
update timestamp it is false whenever expirationSeconds ≤ 0, regardless of
staleness age. -/
theorem isNodeMetricExpired_characterization :
    ∀ (now : Int) (nm : Option LoadAware.NodeMetric) (sec : Int),
      (LoadAware.isNodeMetricExpired now nm sec = true ↔
        nm = none ∨
        ∃ m, nm = some m ∧
          (m.updateTime = none ∨
            ∃ t, m.updateTime = some t ∧ 0 < sec ∧ sec * secondNanos ≤ now - t))
      ∧ (sec ≤ 0 →
          ∀ m t, nm = some m → m.updateTime = some t →
            LoadAware.isNodeMetricExpired now nm sec = false) := by
  intro now nm sec
  constructor
  · cases nm with
    | none => simp [LoadAware.isNodeMetricExpired]
    | some m =>
      cases hu : m.updateTime with
      | none => simp [LoadAware.isNodeMetricExpired, hu]
      | some t => simp [LoadAware.isNodeMetricExpired, hu]
  · intro hsec m t hm hu
    subst hm
    simp [LoadAware.isNodeMetricExpired, hu, show ¬(0 < sec) by omega]

/-- C9 witness: a one-year-stale snapshot with expirationSeconds = -5 is not
expired. -/
theorem isNodeMetricExpired_characterization_witness :
    LoadAware.isNodeMetricExpired 1000000000000 (some ⟨some 0, none, none⟩) (-5) = false :=
  (isNodeMetricExpired_characterization 1000000000000 (some ⟨some 0, none, none⟩) (-5)).2
    (by decide) ⟨some 0, none, none⟩ 0 rfl rfl

/-- C10: an assignment whose timestamp equals the snapshot's update timestamp
exactly contributes nothing to estimatedAssignedPodUsage, whatever the
reporting interval. -/
theorem estimatedAssignedPodUsage_excludes_equal_timestamp :
    ∀ (translate : LoadAware.Translate) (ws : LoadAware.Weights)
      (sf : ResourceName → Int) (nm : LoadAware.NodeMetric) (T : Int)
      (a : LoadAware.PodAssignInfo) (rest : List LoadAware.PodAssignInfo)
      (r : ResourceName),
      nm.updateTime = some T → a.timestamp = T →
      LoadAware.estimatedAssignedPodUsage translate ws sf nm (a :: rest) r =
        LoadAware.estimatedAssignedPodUsage translate ws sf nm rest r := by
  intro translate ws sf nm T a rest r hu ht
  simp [LoadAware.estimatedAssignedPodUsage, hu, ht]

/-- C10 witness: with update time 5 and an assignment at time 5, the cached
entry is excluded. -/
theorem estimatedAssignedPodUsage_excludes_equal_timestamp_witness :
    LoadAware.estimatedAssignedPodUsage (fun _ r => r) [(.cpu, 1)] (fun _ => 100)
        ⟨some 5, none, none⟩ [⟨5, ⟨[], [], none, .prod⟩⟩] .cpu =
      LoadAware.estimatedAssignedPodUsage (fun _ r => r) [(.cpu, 1)] (fun _ => 100)
        ⟨some 5, none, none⟩ [] .cpu :=
  estimatedAssignedPodUsage_excludes_equal_timestamp (fun _ r => r) [(.cpu, 1)]
    (fun _ => 100) ⟨some 5, none, none⟩ 5 ⟨5, ⟨[], [], none, .prod⟩⟩ [] .cpu rfl rfl

/-- C2: estimatedAssignedPodUsage sums the estimates of exactly those cached
assignments whose timestamp is strictly after the snapshot's update timestamp,
or strictly before it with the gap to the update time strictly smaller than the
snapshot's reporting interval — the declared interval when present, else the
60-second default. -/
theorem estimatedAssignedPodUsage_inclusion :
    ∀ (translate : LoadAware.Translate) (ws : LoadAware.Weights)
      (sf : ResourceName → Int) (nm : LoadAware.NodeMetric) (T : Int)
      (items : List LoadAware.PodAssignInfo) (r : ResourceName),
      nm.updateTime = some T →
      LoadAware.estimatedAssignedPodUsage translate ws sf nm items r =
        ((items.filter (fun a =>
            decide (T < a.timestamp) ||
              (decide (a.timestamp < T) &&
                decide (T - a.timestamp <
                  match nm.collectPolicy with
                  | some (some s) => s * secondNanos
                  | _ => 60 * secondNanos)))).map
          (fun a => LoadAware.estimatedPodUsed translate a.pod ws sf r)).sum := by
  intro translate ws sf nm T items r hu
  have hint : (match nm.collectPolicy with
      | some (some s) => s * secondNanos
      | _ => (60 : Int) * secondNanos) = LoadAware.getNodeMetricReportInterval nm := by
    unfold LoadAware.getNodeMetricReportInterval DefaultNodeMetricReportInterval
    rcases nm.collectPolicy with _ | (_ | s) <;> rfl
  induction items with
  | nil => simp [LoadAware.estimatedAssignedPodUsage]
  | cons a rest ih =>
    rw [List.filter_cons]
    by_cases hc : T < a.timestamp ∨
        (a.timestamp < T ∧ T - a.timestamp < LoadAware.getNodeMetricReportInterval nm)
    · have hb : (decide (T < a.timestamp) ||
          (decide (a.timestamp < T) &&
            decide (T - a.timestamp <
              match nm.collectPolicy with
              | some (some s) => s * secondNanos
              | _ => 60 * secondNanos))) = true := by
        rw [hint]
        simpa using hc
      simp only [hb, if_pos, List.map_cons, List.sum_cons, ← ih]
      simp [LoadAware.estimatedAssignedPodUsage, hu, hc]
    · have hb : (decide (T < a.timestamp) ||
          (decide (a.timestamp < T) &&
            decide (T - a.timestamp <
              match nm.collectPolicy with
              | some (some s) => s * secondNanos
              | _ => 60 * secondNanos))) = false := by
        rw [hint]
        simpa using hc
      simp only [hb, Bool.false_eq_true, if_neg, not_false_iff]
      simpa [LoadAware.estimatedAssignedPodUsage, hu, hc] using ih

/-- C2 witness: update time 100, default 60s interval, one assignment at time
200 (after the update): its estimate (the 250m default of a resourceless pod)
is the whole pending sum. -/
theorem estimatedAssignedPodUsage_inclusion_witness :
    LoadAware.estimatedAssignedPodUsage (fun _ r => r) [(.cpu, 1)] (fun _ => 100)
        ⟨some 100, none, none⟩ [⟨200, ⟨[], [], none, .prod⟩⟩] .cpu = 250 := by
  rw [estimatedAssignedPodUsage_inclusion (fun _ r => r) [(.cpu, 1)] (fun _ => 100)
    ⟨some 100, none, none⟩ 100 [⟨200, ⟨[], [], none, .prod⟩⟩] .cpu rfl]
  decide

/-- C4: in the node's batch allocatable the current name's value overwrites the
legacy name's value when both are present (a single ceiling), while the node's
batch requested total is the sum of the values under both names, for cpu and
memory alike. -/
theorem batch_dual_naming_reconciliation :
    ∀ ni : BatchResource.NodeInfo,
      (∀ a b : Nat, ni.allocatableScalar .batchCPU = some a →
        ni.allocatableScalar .koordBatchCPU = some b →
        (BatchResource.computeNodeBatchAllocatable ni).MilliCPU = a)
      ∧ (∀ a b : Nat, ni.allocatableScalar .batchMemory = some a →
          ni.allocatableScalar .koordBatchMemory = some b →
          (BatchResource.computeNodeBatchAllocatable ni).Memory = a)
      ∧ (BatchResource.computeNodeBatchRequested ni).MilliCPU =
          ((ni.requestedScalar .batchCPU).getD 0 : Int) +
            ((ni.requestedScalar .koordBatchCPU).getD 0 : Int)
      ∧ (BatchResource.computeNodeBatchRequested ni).Memory =
          ((ni.requestedScalar .batchMemory).getD 0 : Int) +
            ((ni.requestedScalar .koordBatchMemory).getD 0 : Int) := by
  intro ni
  refine ⟨?_, ?_, ?_, ?_⟩
  · intro a b ha hb
    simp [BatchResource.computeNodeBatchAllocatable, ha, hb]
  · intro a b ha hb
    simp [BatchResource.computeNodeBatchAllocatable, ha, hb]
  · unfold BatchResource.computeNodeBatchRequested
    cases ni.requestedScalar .batchCPU <;>
      cases ni.requestedScalar .koordBatchCPU <;> simp
  · unfold BatchResource.computeNodeBatchRequested
    cases ni.requestedScalar .batchMemory <;>
      cases ni.requestedScalar .koordBatchMemory <;> simp

/-- C4 witness: current batch-cpu 1000 with legacy 500 gives allocatable 1000,
while requested 300 under the current and 200 under the legacy name sum to
500. -/
theorem batch_dual_naming_reconciliation_witness :
    (BatchResource.computeNodeBatchAllocatable
        ⟨fun r => if r = .batchCPU then some 1000 else
            if r = .koordBatchCPU then some 500 else none,
          fun r => if r = .batchCPU then some 300 else
            if r = .koordBatchCPU then some 200 else none⟩).MilliCPU = 1000 ∧
      (BatchResource.computeNodeBatchRequested
        ⟨fun r => if r = .batchCPU then some 1000 else
            if r = .koordBatchCPU then some 500 else none,
          fun r => if r = .batchCPU then some 300 else
            if r = .koordBatchCPU then some 200 else none⟩).MilliCPU = 500 := by
  constructor
  · exact (batch_dual_naming_reconciliation _).1 1000 500 rfl rfl
  · rw [(batch_dual_naming_reconciliation _).2.2.1]
    decide

/-- C5: fitsRequest admits unconditionally (empty insufficiency list, success
of the filter) when the pod's batch demand is (0,0); otherwise it checks cpu
and memory independently, appending one record per resource whose demand
exceeds allocatable minus already-requested, each with the fixed reason string
and the requested/used/capacity figures. -/
theorem fitsRequest_characterization :
    ∀ (pod : BatchResource.Pod) (ni : BatchResource.NodeInfo),
      ((BatchResource.computePodBatchRequest pod).MilliCPU = 0 ∧
          (BatchResource.computePodBatchRequest pod).Memory = 0 →
        BatchResource.fitsRequest pod ni = [] ∧
          BatchResource.Filter pod ni = .success)
      ∧ (¬((BatchResource.computePodBatchRequest pod).MilliCPU = 0 ∧
            (BatchResource.computePodBatchRequest pod).Memory = 0) →
        BatchResource.fitsRequest pod ni =
          (if (BatchResource.computeNodeBatchAllocatable ni).MilliCPU -
                (BatchResource.computeNodeBatchRequested ni).MilliCPU <
                (BatchResource.computePodBatchRequest pod).MilliCPU then
            [{ resourceName := .batchCPU, reason := "Insufficient batch cpu",
               requested := (BatchResource.computePodBatchRequest pod).MilliCPU,
               used := (BatchResource.computeNodeBatchRequested ni).MilliCPU,
               capacity := (BatchResource.computeNodeBatchAllocatable ni).MilliCPU }]
          else [])
          ++
          (if (BatchResource.computeNodeBatchAllocatable ni).Memory -
                (BatchResource.computeNodeBatchRequested ni).Memory <
                (BatchResource.computePodBatchRequest pod).Memory then
            [{ resourceName := .batchMemory, reason := "Insufficient batch memory",
               requested := (BatchResource.computePodBatchRequest pod).Memory,
               used := (BatchResource.computeNodeBatchRequested ni).Memory,
               capacity := (BatchResource.computeNodeBatchAllocatable ni).Memory }]
          else [])) := by
  intro pod ni
  constructor
  · intro h
    have hfit : BatchResource.fitsRequest pod ni = [] := by
      unfold BatchResource.fitsRequest
      simp [h]
    exact ⟨hfit, by simp [BatchResource.Filter, hfit]⟩
  · intro h
    unfold BatchResource.fitsRequest
    simp [h]

/-- C5 witness: batch-cpu demand 300m against allocatable 1000m of which 800m
is already requested is rejected exactly for cpu with the figures
(300, 800, 1000); the memory dimension (no demand) adds no record. -/
theorem fitsRequest_characterization_witness :
    BatchResource.fitsRequest
        ⟨[fun r => if r = .batchCPU then some 300 else none], [], none⟩
        ⟨fun r => if r = .batchCPU then some 1000 else none,
          fun r => if r = .batchCPU then some 800 else none⟩ =
      [{ resourceName := .batchCPU, reason := "Insufficient batch cpu",
         requested := 300, used := 800, capacity := 1000 }] := by
  rw [(fitsRequest_characterization
    ⟨[fun r => if r = .batchCPU then some 300 else none], [], none⟩
    ⟨fun r => if r = .batchCPU then some 1000 else none,
      fun r => if r = .batchCPU then some 800 else none⟩).2 (by decide)]
  decide

/-- The scorer loop computes the weighted score sum and the weight sum of the
ResourceWeights entries. -/
theorem sumWeightedScores_eq (ws : LoadAware.Weights)
    (used alloc : ResourceName → Int) :
    LoadAware.sumWeightedScores ws used alloc =
      ((ws.map (fun p =>
          LoadAware.leastRequestedScore (used p.1) (alloc p.1) * p.2)).sum,
        (ws.map (fun p => p.2)).sum) := by
  induction ws with
  | nil => rfl
  | cons p rest ih => simp [LoadAware.sumWeightedScores, ih]

/-- For non-negative usage and capacity, one resource's score lies in
[0, MaxNodeScore]. -/
theorem leastRequestedScore_bounds (U C : Int) (hU : 0 ≤ U) (hC : 0 ≤ C) :
    0 ≤ LoadAware.leastRequestedScore U C ∧
      LoadAware.leastRequestedScore U C ≤ MaxNodeScore := by
  unfold LoadAware.leastRequestedScore
  split
  · exact ⟨le_refl 0, by norm_num [MaxNodeScore]⟩
  · split
    · exact ⟨le_refl 0, by norm_num [MaxNodeScore]⟩
    · rename_i hne hlt
      have hC0 : 0 < C := lt_of_le_of_ne hC (Ne.symm hne)
      have hUC : U ≤ C := le_of_not_lt hlt
      have hnum : 0 ≤ (C - U) * MaxNodeScore := by
        have : (0:Int) ≤ MaxNodeScore := by norm_num [MaxNodeScore]
        exact mul_nonneg (by omega) this
      rw [Int.tdiv_eq_ediv hnum hC]
      refine ⟨Int.ediv_nonneg hnum hC, ?_⟩
      have hle : (C - U) * MaxNodeScore ≤ C * MaxNodeScore := by
        have : (0:Int) ≤ MaxNodeScore := by norm_num [MaxNodeScore]
        exact mul_le_mul_of_nonneg_right (by omega) this
      calc (C - U) * MaxNodeScore / C ≤ C * MaxNodeScore / C :=
            Int.ediv_le_ediv hC0 hle
        _ = MaxNodeScore := by
            rw [mul_comm, Int.mul_ediv_cancel _ (by omega)]

/-- With non-negative weights and non-negative used/allocatable values, the
weighted score sum lies between 0 and MaxNodeScore times the weight sum. -/
theorem weightedScoreSum_bounds (ws : LoadAware.Weights)
    (used alloc : ResourceName → Int)
    (hw : ∀ p ∈ ws, 0 ≤ p.2) (hu : ∀ x, 0 ≤ used x) (ha : ∀ x, 0 ≤ alloc x) :
    0 ≤ (ws.map (fun p =>
        LoadAware.leastRequestedScore (used p.1) (alloc p.1) * p.2)).sum ∧
      (ws.map (fun p =>
        LoadAware.leastRequestedScore (used p.1) (alloc p.1) * p.2)).sum ≤
        MaxNodeScore * (ws.map (fun p => p.2)).sum := by
  induction ws with
  | nil => simp
  | cons p rest ih =>
    have hwp : 0 ≤ p.2 := hw p (List.mem_cons_self p rest)
    have hrest := ih (fun q hq => hw q (List.mem_cons_of_mem p hq))
    have hs := leastRequestedScore_bounds (used p.1) (alloc p.1) (hu p.1) (ha p.1)
    simp only [List.map_cons, List.sum_cons]
    constructor
    · have : 0 ≤ LoadAware.leastRequestedScore (used p.1) (alloc p.1) * p.2 :=
        mul_nonneg hs.1 hwp
      omega
    · have h1 : LoadAware.leastRequestedScore (used p.1) (alloc p.1) * p.2 ≤
          MaxNodeScore * p.2 := mul_le_mul_of_nonneg_right hs.2 hwp
      have h2 := hrest.2
      nlinarith [h1, h2]

/-- C3 counterexample: the weight map [(cpu, 2), (memory, -1)] has positive
total weight 1, yet with used = (cpu 100, memory 0) and allocatable 100 the
final score is -100, outside [0, MaxNodeScore]: the claim's quantification over
every weight map with positive total weight is too broad. -/
theorem loadAwareSchedulingScorer_negative_weight_counterexample :
    LoadAware.loadAwareSchedulingScorer [(.cpu, 2), (.memory, -1)]
        (fun r => if r = .cpu then 100 else 0) (fun _ => 100) = -100 ∧
      ¬(0 ≤ LoadAware.loadAwareSchedulingScorer [(.cpu, 2), (.memory, -1)]
        (fun r => if r = .cpu then 100 else 0) (fun _ => 100)) := by
  decide

/-- C3 (amended): per resource the score is ((C-U)*MaxNodeScore)/C with
truncating division when C>0 and 0≤U≤C and 0 when C=0 or U>C; the final score
is the weight-summed per-resource score divided by the weight sum (truncating);
a single resource of weight 1 scores exactly its leastRequestedScore; and for
weight maps of non-negative weights with positive total weight over
non-negative used/allocatable maps the result lies in [0, MaxNodeScore]. -/
theorem loadAwareSchedulingScorer_spec :
    (∀ U C : Int, 0 < C → 0 ≤ U → U ≤ C →
      LoadAware.leastRequestedScore U C = ((C - U) * MaxNodeScore).tdiv C)
    ∧ (∀ U C : Int, C = 0 ∨ C < U → LoadAware.leastRequestedScore U C = 0)
    ∧ (∀ (ws : LoadAware.Weights) (used alloc : ResourceName → Int),
        LoadAware.loadAwareSchedulingScorer ws used alloc =
          ((ws.map (fun p =>
            LoadAware.leastRequestedScore (used p.1) (alloc p.1) * p.2)).sum).tdiv
            ((ws.map (fun p => p.2)).sum))
    ∧ (∀ (r : ResourceName) (used alloc : ResourceName → Int),
        LoadAware.loadAwareSchedulingScorer [(r, 1)] used alloc =
          LoadAware.leastRequestedScore (used r) (alloc r))
    ∧ (∀ (ws : LoadAware.Weights) (used alloc : ResourceName → Int),
        (∀ p ∈ ws, 0 ≤ p.2) → 0 < (ws.map (fun p => p.2)).sum →
        (∀ x, 0 ≤ used x) → (∀ x, 0 ≤ alloc x) →
        0 ≤ LoadAware.loadAwareSchedulingScorer ws used alloc ∧
          LoadAware.loadAwareSchedulingScorer ws used alloc ≤ MaxNodeScore) := by
  have hscorer : ∀ (ws : LoadAware.Weights) (used alloc : ResourceName → Int),
      LoadAware.loadAwareSchedulingScorer ws used alloc =
        ((ws.map (fun p =>
          LoadAware.leastRequestedScore (used p.1) (alloc p.1) * p.2)).sum).tdiv
          ((ws.map (fun p => p.2)).sum) := by
    intro ws used alloc
    unfold LoadAware.loadAwareSchedulingScorer
    rw [sumWeightedScores_eq]
  refine ⟨?_, ?_, hscorer, ?_, ?_⟩
  · intro U C hC hU hUC
    unfold LoadAware.leastRequestedScore
    rw [if_neg (by omega), if_neg (by omega)]
  · intro U C h
    unfold LoadAware.leastRequestedScore
    by_cases hC : C = 0
    · rw [if_pos hC]
    · rcases h with h | h
      · exact absurd h hC
      · rw [if_neg hC, if_pos h]
  · intro r used alloc
    rw [hscorer]
    simp [Int.tdiv_one]
  · intro ws used alloc hw hpos hu ha
    rw [hscorer]
    have hb := weightedScoreSum_bounds ws used alloc hw hu ha
    rw [Int.tdiv_eq_ediv hb.1 (le_of_lt hpos)]
    refine ⟨Int.ediv_nonneg hb.1 (le_of_lt hpos), ?_⟩
    calc (ws.map (fun p =>
            LoadAware.leastRequestedScore (used p.1) (alloc p.1) * p.2)).sum /
            (ws.map (fun p => p.2)).sum
          ≤ MaxNodeScore * (ws.map (fun p => p.2)).sum /
            (ws.map (fun p => p.2)).sum := Int.ediv_le_ediv hpos hb.2
      _ = MaxNodeScore := Int.mul_ediv_cancel _ (by omega)

/-- C3 witness: a fully idle single-resource node with weight 1 scores within
[0, MaxNodeScore]. -/
theorem loadAwareSchedulingScorer_spec_witness :
    0 ≤ LoadAware.loadAwareSchedulingScorer [(.cpu, 1)] (fun _ => 0)
        (fun _ => 100) ∧
      LoadAware.loadAwareSchedulingScorer [(.cpu, 1)] (fun _ => 0)
        (fun _ => 100) ≤ MaxNodeScore :=
  loadAwareSchedulingScorer_spec.2.2.2.2 [(.cpu, 1)] (fun _ => 0) (fun _ => 100)
    (by decide) (by decide) (fun _ => le_refl 0) (fun _ => by norm_num)

/-- C8: a NotFound metric lookup makes Score return 0 with success and Filter
admit the node; an expired metric (expiration configured) makes Score return 0
with success, while the enabled expiration gate in Filter rejects the node as
Unschedulable with the fixed reason. -/
theorem score_filter_missing_or_expired_metric :
    (∀ (translate : LoadAware.Translate) (now : Int) (args : LoadAware.LoadAwareArgs)
      (node : LoadAware.Node) (pod : LoadAware.Pod)
      (infos : List LoadAware.PodAssignInfo),
      LoadAware.Score translate now args (.ok (some node)) .notFound pod infos =
        (0, .success))
    ∧ (∀ (now : Int) (args : LoadAware.LoadAwareArgs) (node : LoadAware.Node),
        LoadAware.Filter now args (some node) .notFound = .success)
    ∧ (∀ (translate : LoadAware.Translate) (now : Int)
        (args : LoadAware.LoadAwareArgs) (node : LoadAware.Node)
        (nm : LoadAware.NodeMetric) (pod : LoadAware.Pod)
        (infos : List LoadAware.PodAssignInfo) (sec : Int),
        args.nodeMetricExpirationSeconds = some sec →
        LoadAware.isNodeMetricExpired now (some nm) sec = true →
        LoadAware.Score translate now args (.ok (some node)) (.found nm) pod infos =
          (0, .success))
    ∧ (∀ (now : Int) (args : LoadAware.LoadAwareArgs) (node : LoadAware.Node)
        (nm : LoadAware.NodeMetric) (sec : Int),
        args.filterExpiredNodeMetrics = some true →
        args.nodeMetricExpirationSeconds = some sec →
        LoadAware.isNodeMetricExpired now (some nm) sec = true →
        LoadAware.Filter now args (some node) (.found nm) =
          .unschedulable [LoadAware.ErrReasonNodeMetricExpired]) := by
  refine ⟨?_, ?_, ?_, ?_⟩
  · intro translate now args node pod infos
    rfl
  · intro now args node
    rfl
  · intro translate now args node nm pod infos sec hsec hexp
    unfold LoadAware.Score
    simp [hsec, hexp]
  · intro now args node nm sec hgate hsec hexp
    unfold LoadAware.Filter
    simp [hgate, hsec, hexp]

/-- C8 witness: with the gate enabled (expiration 10s) and a metric carrying no
update timestamp (hence expired), Filter rejects with the fixed reason, and
Score on the same node returns (0, success) for a NotFound lookup. -/
theorem score_filter_missing_or_expired_metric_witness :
    LoadAware.Filter 0 ⟨some true, some 10, [], fun _ => 0, []⟩
        (some ⟨fun _ => 0, []⟩) (.found ⟨none, none, none⟩) =
      .unschedulable [LoadAware.ErrReasonNodeMetricExpired] ∧
      LoadAware.Score (fun _ r => r) 0 ⟨some true, some 10, [], fun _ => 0, []⟩
        (.ok (some ⟨fun _ => 0, []⟩)) .notFound ⟨[], [], none, .prod⟩ [] =
        (0, .success) :=
  ⟨score_filter_missing_or_expired_metric.2.2.2 0
      ⟨some true, some 10, [], fun _ => 0, []⟩ ⟨fun _ => 0, []⟩
      ⟨none, none, none⟩ 10 rfl rfl rfl,
    score_filter_missing_or_expired_metric.1 (fun _ r => r) 0
      ⟨some true, some 10, [], fun _ => 0, []⟩ ⟨fun _ => 0, []⟩
      ⟨[], [], none, .prod⟩ []⟩

/-- When no list in l mentions n, the sum of its read-as-0 values is 0. -/
theorem sum_getD_zero_of_no_mention (l : List BatchResource.QuantityMap)
    (n : ResourceName) (h : l.any (fun c => (c n).isSome) = false) :
    (l.map (fun c => (c n).getD 0)).sum = 0 := by
  induction l with
  | nil => rfl
  | cons c rest ih =>
    simp only [List.any_cons, Bool.or_eq_false_iff] at h
    have hc : c n = none := Option.not_isSome_iff_eq_none.mp (by simp [h.1])
    simp [hc, ih h.2]

/-- When no list in l mentions n, the max of its read-as-0 values is 0. -/
theorem foldr_max_zero_of_no_mention (l : List BatchResource.QuantityMap)
    (n : ResourceName) (h : l.any (fun c => (c n).isSome) = false) :
    (l.map (fun c => (c n).getD 0)).foldr max 0 = 0 := by
  induction l with
  | nil => rfl
  | cons c rest ih =>
    simp only [List.any_cons, Bool.or_eq_false_iff] at h
    have hc : c n = none := Option.not_isSome_iff_eq_none.mp (by simp [h.1])
    simp [hc, ih h.2]

/-- Folding Resource.Add over a list of resource lists leaves, at a scalar
name, the accumulated entry increased by the sum of the mentioned values, the
entry present exactly when it already was or some list mentions the name. -/
theorem scalar_foldl_resourceAdd (l : List BatchResource.QuantityMap)
    (acc : BatchResource.FrameworkResource) (n : ResourceName)
    (h : BatchResource.isScalarResourceName n = true) :
    (l.foldl BatchResource.resourceAdd acc).scalar n =
      if l.any (fun c => (c n).isSome) then
        some (((acc.scalar n).getD 0) + (l.map (fun c => (c n).getD 0)).sum)
      else acc.scalar n := by
  induction l generalizing acc with
  | nil => simp
  | cons c rest ih =>
    rw [List.foldl_cons, ih (BatchResource.resourceAdd acc c)]
    have hs : (BatchResource.resourceAdd acc c).scalar n =
        match c n with
        | some v => some ((acc.scalar n).getD 0 + v)
        | none => acc.scalar n := by
      simp [BatchResource.resourceAdd, h]
    cases hc : c n with
    | some v =>
      simp only [hs, hc, List.any_cons, List.map_cons, List.sum_cons]
      cases hr : rest.any (fun c => (c n).isSome) with
      | true => simp [hc, hr, Nat.add_assoc]
      | false =>
        rw [sum_getD_zero_of_no_mention rest n hr]
        simp [hc, hr]
    | none =>
      simp only [hs, hc, List.any_cons, List.map_cons, List.sum_cons]
      simp [hc]

/-- Folding Resource.SetMaxResource over a list of resource lists leaves, at a
scalar name, the maximum of the accumulated entry and the mentioned values,
present exactly when the entry already was or some list mentions the name. -/
theorem scalar_foldl_resourceSetMax (l : List BatchResource.QuantityMap)
    (acc : BatchResource.FrameworkResource) (n : ResourceName)
    (h : BatchResource.isScalarResourceName n = true) :
    (l.foldl BatchResource.resourceSetMax acc).scalar n =
      if l.any (fun c => (c n).isSome) then
        some (max ((acc.scalar n).getD 0)
          ((l.map (fun c => (c n).getD 0)).foldr max 0))
      else acc.scalar n := by
  induction l generalizing acc with
  | nil => simp
  | cons c rest ih =>
    rw [List.foldl_cons, ih (BatchResource.resourceSetMax acc c)]
    have hs : (BatchResource.resourceSetMax acc c).scalar n =
        match c n with
        | some v => some (max ((acc.scalar n).getD 0) v)
        | none => acc.scalar n := by
      simp [BatchResource.resourceSetMax, h]
    cases hc : c n with
    | some v =>
      simp only [hs, hc, List.any_cons, List.map_cons, List.foldr_cons]
      cases hr : rest.any (fun c => (c n).isSome) with
      | true => simp [hc, hr, Nat.max_assoc]
      | false =>
        rw [foldr_max_zero_of_no_mention rest n hr]
        simp [hc, hr]
    | none =>
      simp only [hs, hc, List.any_cons, List.map_cons, List.foldr_cons]
      simp [hc]

/-- At a scalar name, the aggregate computePodBatchRequest builds equals the
spec-side value: present when mentioned anywhere, and worth the sum of the main
containers maxed against each init container plus the overhead. -/
theorem podRequestResource_scalar (pod : BatchResource.Pod) (n : ResourceName)
    (h : BatchResource.isScalarResourceName n = true) :
    (BatchResource.podRequestResource pod).scalar n =
      BatchResource.specScalarValue pod n := by
  have hstage :
      ((pod.initContainers.foldl BatchResource.resourceSetMax
          (pod.containers.foldl BatchResource.resourceAdd
            BatchResource.emptyResource)).scalar n) =
        if pod.initContainers.any (fun c => (c n).isSome) then
          some (max
            ((if pod.containers.any (fun c => (c n).isSome) then
                some ((0 : Nat) + (pod.containers.map (fun c => (c n).getD 0)).sum)
              else none).getD 0)
            ((pod.initContainers.map (fun c => (c n).getD 0)).foldr max 0))
        else
          if pod.containers.any (fun c => (c n).isSome) then
            some ((0 : Nat) + (pod.containers.map (fun c => (c n).getD 0)).sum)
          else none := by
    rw [scalar_foldl_resourceSetMax _ _ _ h, scalar_foldl_resourceAdd _ _ _ h]
    rfl
  simp only [BatchResource.podRequestResource]
  cases ho : pod.overhead with
  | none =>
    show ((pod.initContainers.foldl BatchResource.resourceSetMax
        (pod.containers.foldl BatchResource.resourceAdd
          BatchResource.emptyResource)).scalar n) = _
    rw [hstage]
    unfold BatchResource.specScalarValue BatchResource.specMentions
      BatchResource.specAggregatedRequest
    cases hm : pod.containers.any (fun c => (c n).isSome) with
    | true =>
      cases hi : pod.initContainers.any (fun c => (c n).isSome) with
      | true => simp [hm, hi, ho]
      | false =>
        rw [foldr_max_zero_of_no_mention _ _ hi]
        simp [hm, hi, ho]
    | false =>
      rw [sum_getD_zero_of_no_mention _ _ hm]
      cases hi : pod.initContainers.any (fun c => (c n).isSome) with
      | true => simp [hm, hi, ho]
      | false => simp [hm, hi, ho]
  | some oh =>
    show ((BatchResource.resourceAdd
        (pod.initContainers.foldl BatchResource.resourceSetMax
          (pod.containers.foldl BatchResource.resourceAdd
            BatchResource.emptyResource)) oh).scalar n) = _
    have hadd : ∀ r : BatchResource.FrameworkResource,
        (BatchResource.resourceAdd r oh).scalar n =
          match oh n with
          | some v => some ((r.scalar n).getD 0 + v)
          | none => r.scalar n := by
      intro r
      simp [BatchResource.resourceAdd, h]
    rw [hadd, hstage]
    unfold BatchResource.specScalarValue BatchResource.specMentions
      BatchResource.specAggregatedRequest
    cases hon : oh n with
    | some v =>
      cases hm : pod.containers.any (fun c => (c n).isSome) with
      | true =>
        cases hi : pod.initContainers.any (fun c => (c n).isSome) with
        | true => simp [hm, hi, ho, hon]
        | false =>
          rw [foldr_max_zero_of_no_mention _ _ hi]
          simp [hm, hi, ho, hon]
      | false =>
        rw [sum_getD_zero_of_no_mention _ _ hm]
        cases hi : pod.initContainers.any (fun c => (c n).isSome) with
        | true => simp [hm, hi, ho, hon]
        | false =>
          rw [foldr_max_zero_of_no_mention _ _ hi]
          simp [hm, hi, ho, hon]
    | none =>
      cases hm : pod.containers.any (fun c => (c n).isSome) with
      | true =>
        cases hi : pod.initContainers.any (fun c => (c n).isSome) with
        | true => simp [hm, hi, ho, hon]
        | false =>
          rw [foldr_max_zero_of_no_mention _ _ hi]
          simp [hm, hi, ho, hon]
      | false =>
        rw [sum_getD_zero_of_no_mention _ _ hm]
        cases hi : pod.initContainers.any (fun c => (c n).isSome) with
        | true => simp [hm, hi, ho, hon]
        | false => simp [hm, hi, ho, hon]

/-- C6: the batch demand computePodBatchRequest feeds to the admission filter
equals the spec §4.1 steps 2–3 aggregation — main containers summed, maxed
against each init container, plus the declared overhead — read directly at the
batch-tier resource names with the current generation authoritative over the
legacy one. -/
theorem computePodBatchRequest_matches_spec :
    ∀ pod : BatchResource.Pod,
      BatchResource.computePodBatchRequest pod =
        BatchResource.specPodBatchRequest pod := by
  intro pod
  have hb := podRequestResource_scalar pod .batchCPU rfl
  have hk := podRequestResource_scalar pod .koordBatchCPU rfl
  have hbm := podRequestResource_scalar pod .batchMemory rfl
  have hkm := podRequestResource_scalar pod .koordBatchMemory rfl
  simp only [BatchResource.computePodBatchRequest, BatchResource.specPodBatchRequest]
  rw [hb, hk, hbm, hkm]

end Koord

